import Mathlib

/-!
Shallow embedding of `tools/parsers/lib/data.py` from the
environmental-footprint-data repository, together with theorems checking
the natural-language specification of the merge algorithm, the value
comparators, the record accessor and the CSV row formatter.

Modelling conventions:
* Python scalar values (`str`, `int`, `float`) are modelled by the
  inductive type `Value`; the float `nan` gets its own constructor
  because `math.isnan` is consulted by `is_empty` and every ordered
  comparison involving `nan` is false in Python.
* Numeric arithmetic is modelled over `ℚ` (exact rationals); the Python
  literals `2e-3` and `0.05` become the exact rationals `2/1000` and
  `5/100`.
* Python strings are Lean `String`s manipulated through their character
  lists; `str.strip`, `str.lower` and the regular expression
  `re.sub(r'\s\s+', ' ', ·)` are modelled over ASCII whitespace.
* A `DeviceCarbonFootprintData` dictionary holds only schema keys, so a
  record is modelled as a function from the schema `Field` enumeration
  to `Option Value` (`none` models an absent key).
-/

namespace EFData

/-- Python scalar values stored in a `DeviceCarbonFootprintData` dict:
a string, an int, a float (as an exact rational), or the float `nan`. -/
inductive Value where
  | vstr (s : String)
  | vint (n : ℤ)
  | vfloat (q : ℚ)
  | vnan
deriving DecidableEq, Repr

/-- Python `isinstance(x, str)` for a `Value`. -/
def Value.isStr : Value → Bool
  | .vstr _ => true
  | _ => false

/-- Python `isinstance(x, float)` for a `Value` (`nan` is a Python float). -/
def Value.isFloat : Value → Bool
  | .vfloat _ => true
  | .vnan => true
  | _ => false

/-- The rational value of a numeric `Value`; `none` for strings and for
`nan` (every ordered comparison involving `nan` is false in Python, which
the comparators below encode by returning `false` on `none`). -/
def Value.toRat? : Value → Option ℚ
  | .vint n => some (n : ℚ)
  | .vfloat q => some q
  | _ => none

/-- ASCII whitespace as matched by Python's `str.strip` and `\s`. -/
def isPyWs (c : Char) : Bool :=
  c == ' ' || c == '\t' || c == '\n' || c == '\r' || c == '\x0b' || c == '\x0c'

/-- Helper bound used for termination of the whitespace-run collapser. -/
theorem dropWhile_length_le (p : Char → Bool) :
    ∀ l : List Char, (l.dropWhile p).length ≤ l.length := by
  intro l
  induction l with
  | nil => simp [List.dropWhile]
  | cons c cs ih =>
    simp only [List.dropWhile]
    cases p c
    · simp
    · simp
      omega

/-- Python `str.strip()` on a character list: drop ASCII whitespace at both ends. -/
def pyStripChars (l : List Char) : List Char :=
  ((l.dropWhile isPyWs).reverse.dropWhile isPyWs).reverse

/-- Python `a.strip()`. -/
def pyStrip (s : String) : String := String.mk (pyStripChars s.data)

/-- Worker for the whitespace-run collapser, structurally recursive on
a fuel argument so that it also reduces inside the kernel; the fuel is
always instantiated with the length of the list, which suffices because
every step consumes at least one character. -/
def collapseFuel : ℕ → List Char → List Char
  | 0, l => l
  | _ + 1, [] => []
  | fuel + 1, c :: cs =>
    if isPyWs c then
      match cs with
      | [] => [c]
      | c2 :: _ =>
        if isPyWs c2 then ' ' :: collapseFuel fuel (cs.dropWhile isPyWs)
        else c :: collapseFuel fuel cs
    else c :: collapseFuel fuel cs

/-- Python `re.sub(r'\s\s+', ' ', ·)`: each maximal run of two or more
whitespace characters becomes a single space; a lone whitespace
character is kept unchanged. -/
def collapseWsRun (l : List Char) : List Char := collapseFuel l.length l

/-- Python `a.replace('”', 'in')`: the right-double-quote character becomes the
two-letter inch abbreviation. -/
def replaceRDQ : List Char → List Char
  | [] => []
  | c :: rest => (if c = '”' then ['i', 'n'] else [c]) ++ replaceRDQ rest

/-- The string normalization used by `are_close_enough`:
`re.sub(r'\s\s+', ' ', a.replace('”','in')).strip().lower()`
(ASCII model of `str.lower`). -/
def normalizeClose (s : String) : List Char :=
  (pyStripChars (collapseWsRun (replaceRDQ s.data))).map Char.toLower

/-- Source `is_empty(x)`: a string is empty iff it equals `''`; a number is
empty iff it is `nan` or equal to zero. -/
def is_empty : Value → Bool
  | .vstr s => s == ""
  | .vint n => n == 0
  | .vfloat q => q == 0
  | .vnan => true

/-- Source `are_equal(a, b)`: strings compare equal after stripping; two
non-strings compare by `abs(a-b) <= 2e-3 * max(a,b)` (false whenever a
`nan` is involved); mixed string/non-string pairs are never equal. -/
def are_equal (a b : Value) : Bool :=
  match a, b with
  | .vstr s, .vstr t => pyStrip s == pyStrip t
  | .vstr _, _ => false
  | _, .vstr _ => false
  | a, b =>
    match a.toRat?, b.toRat? with
    | some x, some y => decide (|x - y| ≤ 2/1000 * max x y)
    | _, _ => false

/-- Source `are_close_enough(a, b)`: strings compare equal after the
`normalizeClose` normalization; two non-strings compare by
`abs(a-b) <= 0.05 * max(a,b)` (false whenever a `nan` is involved);
mixed pairs are never close enough. -/
def are_close_enough (a b : Value) : Bool :=
  match a, b with
  | .vstr s, .vstr t => normalizeClose s == normalizeClose t
  | .vstr _, _ => false
  | _, .vstr _ => false
  | a, b =>
    match a.toRat?, b.toRat? with
    | some x, some y => decide (|x - y| ≤ 5/100 * max x y)
    | _, _ => false

/-- The fixed schema of `DeviceCarbonFootprintData`, one constructor per
annotated field, in declaration order. -/
inductive Field where
  | manufacturer
  | name
  | category
  | subcategory
  | gwp_total
  | gwp_use_ratio
  | yearly_tec
  | lifetime
  | use_location
  | report_date
  | sources
  | sources_hash
  | gwp_error_ratio
  | gwp_manufacturing_ratio
  | weight
  | assembly_location
  | screen_size
  | server_type
  | hard_drive
  | memory
  | number_cpu
  | height
  | added_date
  | add_method
  | gwp_transport_ratio
  | gwp_eol_ratio
  | gwp_electronics_ratio
  | gwp_battery_ratio
  | gwp_hdd_ratio
  | gwp_ssd_ratio
  | gwp_othercomponents_ratio
  | comment
deriving DecidableEq, Fintype, Repr

/-- The keys of `DeviceCarbonFootprintData.__annotations__` in order. -/
def schemaFields : List Field :=
  [.manufacturer, .name, .category, .subcategory, .gwp_total,
   .gwp_use_ratio, .yearly_tec, .lifetime, .use_location, .report_date,
   .sources, .sources_hash, .gwp_error_ratio, .gwp_manufacturing_ratio,
   .weight, .assembly_location, .screen_size, .server_type, .hard_drive,
   .memory, .number_cpu, .height, .added_date, .add_method,
   .gwp_transport_ratio, .gwp_eol_ratio, .gwp_electronics_ratio,
   .gwp_battery_ratio, .gwp_hdd_ratio, .gwp_ssd_ratio,
   .gwp_othercomponents_ratio, .comment]

/-- The Python name of each schema field. -/
def fieldName : Field → String
  | .manufacturer => "manufacturer"
  | .name => "name"
  | .category => "category"
  | .subcategory => "subcategory"
  | .gwp_total => "gwp_total"
  | .gwp_use_ratio => "gwp_use_ratio"
  | .yearly_tec => "yearly_tec"
  | .lifetime => "lifetime"
  | .use_location => "use_location"
  | .report_date => "report_date"
  | .sources => "sources"
  | .sources_hash => "sources_hash"
  | .gwp_error_ratio => "gwp_error_ratio"
  | .gwp_manufacturing_ratio => "gwp_manufacturing_ratio"
  | .weight => "weight"
  | .assembly_location => "assembly_location"
  | .screen_size => "screen_size"
  | .server_type => "server_type"
  | .hard_drive => "hard_drive"
  | .memory => "memory"
  | .number_cpu => "number_cpu"
  | .height => "height"
  | .added_date => "added_date"
  | .add_method => "add_method"
  | .gwp_transport_ratio => "gwp_transport_ratio"
  | .gwp_eol_ratio => "gwp_eol_ratio"
  | .gwp_electronics_ratio => "gwp_electronics_ratio"
  | .gwp_battery_ratio => "gwp_battery_ratio"
  | .gwp_hdd_ratio => "gwp_hdd_ratio"
  | .gwp_ssd_ratio => "gwp_ssd_ratio"
  | .gwp_othercomponents_ratio => "gwp_othercomponents_ratio"
  | .comment => "comment"

/-- The schema field names in order. -/
def schemaNames : List String := schemaFields.map fieldName

/-- Lookup of a raw string key in the schema, mirroring Python's
`key in DeviceCarbonFootprintData.__annotations__`. -/
def fieldOfString (key : String) : Option Field :=
  schemaFields.find? (fun f => fieldName f == key)

/-- A `DeviceCarbonFootprint` wraps a typed dict holding only schema
keys; `none` models a key absent from the dict. -/
structure DeviceCarbonFootprint where
  data : Field → Option Value

/-- Source `DeviceCarbonFootprint.get(key)` on a raw string key: the stored
value if the key is present, an error if the key is not a schema field,
and the empty string for a schema field with no stored value. -/
def DeviceCarbonFootprint.get (r : DeviceCarbonFootprint) (key : String) :
    Except String Value :=
  match fieldOfString key with
  | some f =>
    match r.data f with
    | some v => .ok v
    | none => .ok (.vstr "")
  | none => .error ("DeviceCarbonFootprint has no such field " ++ key)

/-- The accessor specialized to a schema field (never fails): the stored
value, defaulting to the empty string. -/
def DeviceCarbonFootprint.getField (r : DeviceCarbonFootprint) (f : Field) :
    Value :=
  match r.data f with
  | some v => v
  | none => .vstr ""

/-- Every schema field occurs in `schemaFields`. -/
theorem mem_schemaFields (f : Field) : f ∈ schemaFields := by
  cases f <;> decide

/-- On a schema field's name, the raw-string accessor agrees with the
field-indexed accessor and never fails. -/
theorem get_fieldName (r : DeviceCarbonFootprint) (f : Field) :
    r.get (fieldName f) = .ok (r.getField f) := by
  have h : fieldOfString (fieldName f) = some f := by
    cases f <;> decide
  simp only [DeviceCarbonFootprint.get, DeviceCarbonFootprint.getField, h]
  cases r.data f <;> simp

/-! ### The merge algorithm

`DeviceCarbonFootprint.merge` iterates over the schema keys, classifies
each pair of accessor values with the if/elif chain of the source, and
then resolves the collected conflicts.  The claims below concern the
default `keep2nd` policy, under which the interactive branch is never
entered (the keystroke variable keeps its initial value and record B
wins every conflict); the `verbose` parameter only controls printing and
does not affect the returned data, so it is not modelled. -/

/-- The list `ignore_keys = ['added_date', 'add_method', 'comment']`. -/
def ignore_keys : List Field := [.added_date, .add_method, .comment]

/-- How one field pair fares in the if/elif chain of the merge loop:
the value of record A is kept, the value of record B is kept, or the
field is appended to the conflict list (resolution deferred). -/
inductive MergeOutcome where
  | keep1
  | keep2
  | conflict
deriving DecidableEq, Repr

/-- The if/elif chain of the merge loop, in source order: emptiness on
either side, strict equality, tolerant equality, the ignorable fields,
the special `sources` field (whose regex comparison only affects
printing: the value of record B is always kept), and otherwise a
conflict. -/
def mergeClassify (key : Field) (v1 v2 : Value) : MergeOutcome :=
  if !(is_empty v1) && is_empty v2 then .keep1
  else if is_empty v1 && !(is_empty v2) then .keep2
  else if (is_empty v1 && is_empty v2) || are_equal v1 v2 then .keep2
  else if are_close_enough v1 v2 then .keep2
  else if ignore_keys.contains key then .keep2
  else if key == Field.sources then .keep2
  else .conflict

/-- The loop state of `merge`: the result dict under construction, the
two provenance sets `report[0]` and `report[1]`, and the conflict list. -/
structure MergeState where
  result : Field → Option Value
  repA : Finset Field
  repB : Finset Field
  conflicts : List Field

/-- One iteration of the first merge loop on schema key `key`. -/
def mergeStep (d1 d2 : DeviceCarbonFootprint) (st : MergeState) (key : Field) :
    MergeState :=
  let v1 := d1.getField key
  let v2 := d2.getField key
  match mergeClassify key v1 v2 with
  | .keep1 =>
    { st with result := Function.update st.result key (some v1),
              repA := insert key st.repA }
  | .keep2 =>
    { st with result := Function.update st.result key (some v2),
              repB := insert key st.repB }
  | .conflict =>
    { st with conflicts := st.conflicts ++ [key] }

/-- One iteration of the conflict-resolution loop under the `keep2nd`
policy: record B's value is kept and the key joins `report[1]`. -/
def resolveStep (d2 : DeviceCarbonFootprint) (st : MergeState) (key : Field) :
    MergeState :=
  { st with result := Function.update st.result key (some (d2.getField key)),
            repB := insert key st.repB }

/-- Source `DeviceCarbonFootprint.merge(device1, device2)` under the default
`keep2nd` policy: returns the merged record, the pair of provenance sets
`(report[0], report[1])`, and the conflict list. -/
def merge (d1 d2 : DeviceCarbonFootprint) :
    DeviceCarbonFootprint × (Finset Field × Finset Field) × List Field :=
  let st0 : MergeState := ⟨fun _ => none, ∅, ∅, []⟩
  let st1 := schemaFields.foldl (mergeStep d1 d2) st0
  let st2 := st1.conflicts.foldl (resolveStep d2) st1
  (⟨st2.result⟩, (st2.repA, st2.repB), st2.conflicts)

/-- The value the merge loop stores for a field, by classification. -/
def chosenValue (d1 d2 : DeviceCarbonFootprint) (f : Field) : Value :=
  match mergeClassify f (d1.getField f) (d2.getField f) with
  | .keep1 => d1.getField f
  | _ => d2.getField f

/-! ### Closed forms for the two merge loops -/

theorem mergeStep_result_apply (d1 d2 : DeviceCarbonFootprint)
    (st : MergeState) (c f : Field) :
    (mergeStep d1 d2 st c).result f
      = if f = c ∧ mergeClassify c (d1.getField c) (d2.getField c) ≠ .conflict
        then some (chosenValue d1 d2 c)
        else st.result f := by
  cases h : mergeClassify c (d1.getField c) (d2.getField c) <;>
    simp [mergeStep, h, chosenValue, Function.update_apply]

theorem mergeStep_repA (d1 d2 : DeviceCarbonFootprint)
    (st : MergeState) (c : Field) :
    (mergeStep d1 d2 st c).repA
      = if mergeClassify c (d1.getField c) (d2.getField c) = .keep1
        then insert c st.repA else st.repA := by
  cases h : mergeClassify c (d1.getField c) (d2.getField c) <;>
    simp [mergeStep, h]

theorem mergeStep_repB (d1 d2 : DeviceCarbonFootprint)
    (st : MergeState) (c : Field) :
    (mergeStep d1 d2 st c).repB
      = if mergeClassify c (d1.getField c) (d2.getField c) = .keep2
        then insert c st.repB else st.repB := by
  cases h : mergeClassify c (d1.getField c) (d2.getField c) <;>
    simp [mergeStep, h]

theorem mergeStep_conflicts (d1 d2 : DeviceCarbonFootprint)
    (st : MergeState) (c : Field) :
    (mergeStep d1 d2 st c).conflicts
      = if mergeClassify c (d1.getField c) (d2.getField c) = .conflict
        then st.conflicts ++ [c] else st.conflicts := by
  cases h : mergeClassify c (d1.getField c) (d2.getField c) <;>
    simp [mergeStep, h]

theorem foldl_mergeStep_conflicts (d1 d2 : DeviceCarbonFootprint)
    (L : List Field) (st : MergeState) :
    (L.foldl (mergeStep d1 d2) st).conflicts
      = st.conflicts
        ++ L.filter
            (fun f => mergeClassify f (d1.getField f) (d2.getField f)
              == MergeOutcome.conflict) := by
  induction L generalizing st with
  | nil => simp
  | cons c L ih =>
    simp only [List.foldl_cons, ih, List.filter_cons, mergeStep_conflicts]
    by_cases h : mergeClassify c (d1.getField c) (d2.getField c) = .conflict <;>
      simp [h]

theorem foldl_mergeStep_repA (d1 d2 : DeviceCarbonFootprint)
    (L : List Field) (st : MergeState) :
    (L.foldl (mergeStep d1 d2) st).repA
      = st.repA
        ∪ (L.filter
            (fun f => mergeClassify f (d1.getField f) (d2.getField f)
              == MergeOutcome.keep1)).toFinset := by
  induction L generalizing st with
  | nil => simp
  | cons c L ih =>
    simp only [List.foldl_cons, ih, List.filter_cons, mergeStep_repA]
    by_cases h : mergeClassify c (d1.getField c) (d2.getField c) = .keep1 <;>
      simp [h, Finset.insert_union]

theorem foldl_mergeStep_repB (d1 d2 : DeviceCarbonFootprint)
    (L : List Field) (st : MergeState) :
    (L.foldl (mergeStep d1 d2) st).repB
      = st.repB
        ∪ (L.filter
            (fun f => mergeClassify f (d1.getField f) (d2.getField f)
              == MergeOutcome.keep2)).toFinset := by
  induction L generalizing st with
  | nil => simp
  | cons c L ih =>
    simp only [List.foldl_cons, ih, List.filter_cons, mergeStep_repB]
    by_cases h : mergeClassify c (d1.getField c) (d2.getField c) = .keep2 <;>
      simp [h, Finset.insert_union]

theorem foldl_mergeStep_result (d1 d2 : DeviceCarbonFootprint)
    (L : List Field) (st : MergeState) (f : Field) :
    (L.foldl (mergeStep d1 d2) st).result f
      = if f ∈ L ∧ mergeClassify f (d1.getField f) (d2.getField f) ≠ .conflict
        then some (chosenValue d1 d2 f)
        else st.result f := by
  induction L generalizing st with
  | nil => simp
  | cons c L ih =>
    simp only [List.foldl_cons, ih, mergeStep_result_apply]
    by_cases hfc : f = c
    · subst hfc
      by_cases hnc :
          mergeClassify f (d1.getField f) (d2.getField f) = .conflict
      · simp [hnc]
      · by_cases hfL : f ∈ L <;> simp [hnc, hfL]
    · by_cases hfL : f ∈ L <;> simp [hfc, hfL]

theorem resolveStep_result_apply (d2 : DeviceCarbonFootprint)
    (st : MergeState) (c f : Field) :
    (resolveStep d2 st c).result f
      = if f = c then some (d2.getField c) else st.result f := by
  simp [resolveStep, Function.update_apply]

theorem foldl_resolveStep_result (d2 : DeviceCarbonFootprint)
    (C : List Field) (st : MergeState) (f : Field) :
    (C.foldl (resolveStep d2) st).result f
      = if f ∈ C then some (d2.getField f) else st.result f := by
  induction C generalizing st with
  | nil => simp
  | cons c C ih =>
    simp only [List.foldl_cons, ih, resolveStep_result_apply]
    by_cases hfc : f = c
    · subst hfc
      by_cases hfC : f ∈ C <;> simp [hfC]
    · by_cases hfC : f ∈ C <;> simp [hfc, hfC]

theorem foldl_resolveStep_repB (d2 : DeviceCarbonFootprint)
    (C : List Field) (st : MergeState) :
    (C.foldl (resolveStep d2) st).repB = st.repB ∪ C.toFinset := by
  induction C generalizing st with
  | nil => simp
  | cons c C ih =>
    simp [List.foldl_cons, ih, resolveStep, Finset.insert_union]

theorem foldl_resolveStep_repA (d2 : DeviceCarbonFootprint)
    (C : List Field) (st : MergeState) :
    (C.foldl (resolveStep d2) st).repA = st.repA := by
  induction C generalizing st with
  | nil => simp
  | cons c C ih => simp [List.foldl_cons, ih, resolveStep]

theorem foldl_resolveStep_conflicts (d2 : DeviceCarbonFootprint)
    (C : List Field) (st : MergeState) :
    (C.foldl (resolveStep d2) st).conflicts = st.conflicts := by
  induction C generalizing st with
  | nil => simp
  | cons c C ih => simp [List.foldl_cons, ih, resolveStep]

/-! ### Pointwise characterization of `merge` -/

theorem merge_conflicts_eq (d1 d2 : DeviceCarbonFootprint) :
    (merge d1 d2).2.2
      = schemaFields.filter
          (fun f => mergeClassify f (d1.getField f) (d2.getField f)
            == MergeOutcome.conflict) := by
  simp [merge, foldl_resolveStep_conflicts, foldl_mergeStep_conflicts]

theorem merge_repA_mem (d1 d2 : DeviceCarbonFootprint) (f : Field) :
    f ∈ (merge d1 d2).2.1.1
      ↔ mergeClassify f (d1.getField f) (d2.getField f) = .keep1 := by
  simp [merge, foldl_resolveStep_repA, foldl_mergeStep_repA,
    mem_schemaFields f]

theorem merge_repB_mem (d1 d2 : DeviceCarbonFootprint) (f : Field) :
    f ∈ (merge d1 d2).2.1.2
      ↔ mergeClassify f (d1.getField f) (d2.getField f) ≠ .keep1 := by
  simp only [merge, foldl_resolveStep_repB, foldl_mergeStep_repB,
    foldl_mergeStep_conflicts, foldl_resolveStep_conflicts]
  simp [mem_schemaFields f]
  cases h : mergeClassify f (d1.getField f) (d2.getField f) <;> simp [h]

theorem merge_data_eq (d1 d2 : DeviceCarbonFootprint) (f : Field) :
    (merge d1 d2).1.data f = some (chosenValue d1 d2 f) := by
  simp only [merge, foldl_resolveStep_result, foldl_mergeStep_result,
    foldl_mergeStep_conflicts]
  by_cases h : mergeClassify f (d1.getField f) (d2.getField f) = .conflict
  · simp [h, mem_schemaFields f, chosenValue]
  · simp [h, mem_schemaFields f]

/-! ### The CSV row formatter

`_format_csv_row` stringifies each value (replacing the decimal point by
a comma for floats in the `fr` format), writes the row through
`csv.writer` with delimiter `;` (`fr`) or `,` (`us`), and returns the
written line.  `csv.writer` with its default minimal quoting wraps a
cell in double quotes (doubling any interior double quote) exactly when
the cell contains the delimiter, a double quote, or a CR/LF character,
and terminates the line with CRLF. -/

/-- The two locale conventions, `'us'` and `'fr'`. -/
inductive CsvFormat where
  | us
  | fr
deriving DecidableEq, Repr

/-- Decimal digits of a natural number, via `Nat.toDigits`. -/
def natChars (n : ℕ) : List Char := Nat.toDigits 10 n

/-- Python `str(·)` for an int. -/
def intChars (n : ℤ) : List Char :=
  if n < 0 then '-' :: natChars n.natAbs else natChars n.natAbs

/-- Fractional decimal digits of a rational in `[0, 1)`, up to `fuel`
digits (stops early at an exact expansion). -/
def fracChars : ℕ → ℚ → List Char
  | 0, _ => []
  | fuel + 1, q =>
    if q = 0 then []
    else
      let d : ℤ := ⌊q * 10⌋
      Char.ofNat (48 + d.toNat) :: fracChars fuel (q * 10 - d)

/-- Python `str(·)` for a float modelled as an exact rational: sign,
integer part, a decimal point, and the fractional digits (at least one,
as Python always prints `100.0` with a trailing zero). -/
def floatChars (q : ℚ) : List Char :=
  let sign : List Char := if q < 0 then ['-'] else []
  let a : ℚ := |q|
  let ds := fracChars 17 (a - ⌊a⌋)
  sign ++ natChars (⌊a⌋).toNat ++ '.' :: (if ds = [] then ['0'] else ds)

/-- Python `str(value)` for each kind of stored value. -/
def pyStrChars : Value → List Char
  | .vstr s => s.data
  | .vint n => intChars n
  | .vfloat q => floatChars q
  | .vnan => ['n', 'a', 'n']

/-- The cell text before CSV quoting: `str(value).replace('.', ',')`
for a float in the `fr` format, `str(value)` otherwise. -/
def formatCell (fmt : CsvFormat) (v : Value) : List Char :=
  if fmt == CsvFormat.fr && v.isFloat then
    (pyStrChars v).map (fun c => if c = '.' then ',' else c)
  else pyStrChars v

/-- The field delimiter of each format. -/
def csvDelim (fmt : CsvFormat) : Char :=
  if fmt == CsvFormat.fr then ';' else ','

/-- Minimal quoting of one cell by `csv.writer`: quote (doubling any
interior quote) iff the cell holds the delimiter, a quote, or CR/LF. -/
def csvQuote (delim : Char) (cell : List Char) : List Char :=
  if cell.contains delim || cell.contains '"' ||
      cell.contains '\r' || cell.contains '\n' then
    '"' :: (cell.foldr
      (fun c acc => (if c = '"' then ['"', '"'] else [c]) ++ acc) []) ++ ['"']
  else cell

/-- Source `_format_csv_row(row, csv_format)`: the formatted, quoted cells
joined by the delimiter, terminated by CRLF. -/
def _format_csv_row (row : List Value) (fmt : CsvFormat) : String :=
  String.mk
    (List.intercalate [csvDelim fmt]
      ((row.map (formatCell fmt)).map (csvQuote (csvDelim fmt)))
      ++ ['\r', '\n'])

/-- Source `DeviceCarbonFootprint.as_csv_row(csv_format)`: the accessor values
of the schema fields, in schema order, rendered as one CSV line. -/
def as_csv_row (r : DeviceCarbonFootprint) (fmt : CsvFormat) : String :=
  _format_csv_row (schemaFields.map r.getField) fmt


/-! ### Claims about the value comparators -/

theorem beq_symm {α : Type} [BEq α] [LawfulBEq α] (x y : α) :
    (x == y) = (y == x) := by
  by_cases h : x = y
  · subst h; rfl
  · have h2 : (x == y) = false := by simp [beq_eq_false_iff_ne, h]
    have h3 : (y == x) = false := by simp [beq_eq_false_iff_ne, Ne.symm h]
    rw [h2, h3]

theorem are_equal_int_int (n m : ℤ) :
    are_equal (Value.vint n) (Value.vint m)
      = decide (|(n:ℚ) - (m:ℚ)| ≤ 2/1000 * max (n:ℚ) (m:ℚ)) := rfl

theorem are_equal_int_float (n : ℤ) (q : ℚ) :
    are_equal (Value.vint n) (Value.vfloat q)
      = decide (|(n:ℚ) - q| ≤ 2/1000 * max (n:ℚ) q) := rfl

theorem are_equal_float_int (p : ℚ) (m : ℤ) :
    are_equal (Value.vfloat p) (Value.vint m)
      = decide (|p - (m:ℚ)| ≤ 2/1000 * max p (m:ℚ)) := rfl

theorem are_equal_float_float (p q : ℚ) :
    are_equal (Value.vfloat p) (Value.vfloat q)
      = decide (|p - q| ≤ 2/1000 * max p q) := rfl

theorem are_close_int_int (n m : ℤ) :
    are_close_enough (Value.vint n) (Value.vint m)
      = decide (|(n:ℚ) - (m:ℚ)| ≤ 5/100 * max (n:ℚ) (m:ℚ)) := rfl

theorem are_close_int_float (n : ℤ) (q : ℚ) :
    are_close_enough (Value.vint n) (Value.vfloat q)
      = decide (|(n:ℚ) - q| ≤ 5/100 * max (n:ℚ) q) := rfl

theorem are_close_float_int (p : ℚ) (m : ℤ) :
    are_close_enough (Value.vfloat p) (Value.vint m)
      = decide (|p - (m:ℚ)| ≤ 5/100 * max p (m:ℚ)) := rfl

theorem are_close_float_float (p q : ℚ) :
    are_close_enough (Value.vfloat p) (Value.vfloat q)
      = decide (|p - q| ≤ 5/100 * max p q) := rfl

/-- C2 counterexample: at `a = b = -1.0` the absolute difference `0` is
at most `0.2%` of the larger magnitude `max |a| |b| = 1`, yet
`are_equal` returns `false`, because the source compares against the
signed `max(a,b) = -1`, not against the larger magnitude. -/
theorem are_equal_magnitude_cex :
    are_equal (Value.vfloat (-1)) (Value.vfloat (-1)) = false
    ∧ |(-1 : ℚ) - (-1)| ≤ 2/1000 * max |(-1 : ℚ)| |(-1 : ℚ)| := by
  constructor
  · rw [are_equal_float_float, decide_eq_false_iff_not]
    norm_num
  · norm_num

/-- C2 amended: for every pair of numeric values, `are_equal` returns
true iff the absolute difference is at most `0.2%` of the larger signed
value `max(a, b)` — not of the larger magnitude; the two readings agree
whenever both values are nonnegative. -/
theorem are_equal_signed_max (x y : Value) (a b : ℚ)
    (hx : x.toRat? = some a) (hy : y.toRat? = some b) :
    (are_equal x y = true ↔ |a - b| ≤ 2/1000 * max a b) := by
  cases x with
  | vstr s => simp [Value.toRat?] at hx
  | vnan => simp [Value.toRat?] at hx
  | vint n =>
    cases y with
    | vstr t => simp [Value.toRat?] at hy
    | vnan => simp [Value.toRat?] at hy
    | vint m =>
      obtain rfl : (n : ℚ) = a := by simpa [Value.toRat?] using hx
      obtain rfl : (m : ℚ) = b := by simpa [Value.toRat?] using hy
      rw [are_equal_int_int, decide_eq_true_eq]
    | vfloat q =>
      obtain rfl : (n : ℚ) = a := by simpa [Value.toRat?] using hx
      obtain rfl : q = b := by simpa [Value.toRat?] using hy
      rw [are_equal_int_float, decide_eq_true_eq]
  | vfloat p =>
    cases y with
    | vstr t => simp [Value.toRat?] at hy
    | vnan => simp [Value.toRat?] at hy
    | vint m =>
      obtain rfl : p = a := by simpa [Value.toRat?] using hx
      obtain rfl : (m : ℚ) = b := by simpa [Value.toRat?] using hy
      rw [are_equal_float_int, decide_eq_true_eq]
    | vfloat q =>
      obtain rfl : p = a := by simpa [Value.toRat?] using hx
      obtain rfl : q = b := by simpa [Value.toRat?] using hy
      rw [are_equal_float_float, decide_eq_true_eq]

/-- Witness for the amended C2 at `a = b = 1.0`. -/
theorem are_equal_signed_max_witness :
    are_equal (Value.vfloat 1) (Value.vfloat 1) = true :=
  (are_equal_signed_max (Value.vfloat 1) (Value.vfloat 1) 1 1 rfl rfl).mpr
    (by norm_num)

/-- The numeric core of C6: the `0.2%`-of-`max` bound implies the
`5%`-of-`max` bound (the bound being at least `|a-b| ≥ 0` forces
`max a b ≥ 0`). -/
theorem close_of_equal_rat {a b : ℚ} (h : |a - b| ≤ 2/1000 * max a b) :
    |a - b| ≤ 5/100 * max a b := by
  have h0 : (0:ℚ) ≤ max a b := by linarith [abs_nonneg (a - b)]
  linarith [abs_nonneg (a - b)]

/-- C6: for numeric values, strict equality implies tolerant equality:
whenever `are_equal(a,b)` holds, so does `are_close_enough(a,b)`. -/
theorem are_equal_implies_close_enough (x y : Value)
    (hx : x.isStr = false) (hy : y.isStr = false)
    (h : are_equal x y = true) : are_close_enough x y = true := by
  cases x with
  | vstr s => simp [Value.isStr] at hx
  | vnan => cases y <;> exact Bool.noConfusion h
  | vint n =>
    cases y with
    | vstr t => simp [Value.isStr] at hy
    | vnan => exact Bool.noConfusion h
    | vint m =>
      rw [are_equal_int_int, decide_eq_true_eq] at h
      rw [are_close_int_int, decide_eq_true_eq]
      exact close_of_equal_rat h
    | vfloat q =>
      rw [are_equal_int_float, decide_eq_true_eq] at h
      rw [are_close_int_float, decide_eq_true_eq]
      exact close_of_equal_rat h
  | vfloat p =>
    cases y with
    | vstr t => simp [Value.isStr] at hy
    | vnan => exact Bool.noConfusion h
    | vint m =>
      rw [are_equal_float_int, decide_eq_true_eq] at h
      rw [are_close_float_int, decide_eq_true_eq]
      exact close_of_equal_rat h
    | vfloat q =>
      rw [are_equal_float_float, decide_eq_true_eq] at h
      rw [are_close_float_float, decide_eq_true_eq]
      exact close_of_equal_rat h

/-- Witness for C6 at `a = b = 1.0`. -/
theorem are_equal_implies_close_enough_witness :
    are_close_enough (Value.vfloat 1) (Value.vfloat 1) = true :=
  are_equal_implies_close_enough (Value.vfloat 1) (Value.vfloat 1) rfl rfl
    (by rw [are_equal_float_float, decide_eq_true_eq]; norm_num)

/-- C7: both comparators are commutative: swapping the operands changes
neither `are_equal` nor `are_close_enough`, for any two values of
string, integer or float kind. -/
theorem comparators_comm (a b : Value) :
    are_equal a b = are_equal b a
    ∧ are_close_enough a b = are_close_enough b a := by
  refine ⟨?_, ?_⟩ <;>
    cases a <;> cases b <;>
      first
        | rfl
        | exact beq_symm ..
        | · simp only [are_equal_int_int, are_equal_int_float,
              are_equal_float_int, are_equal_float_float,
              are_close_int_int, are_close_int_float,
              are_close_float_int, are_close_float_float]
            congr 1
            rw [abs_sub_comm, max_comm]


/-! ### Claim about the raw-string accessor -/

theorem fieldOfString_eq_none_iff (key : String) :
    fieldOfString key = none ↔ key ∉ schemaNames := by
  simp [fieldOfString, List.find?_eq_none, schemaNames]

/-- C8: the accessor `get` raises exactly on field names outside the
fixed schema, and returns the empty string for a schema field with no
stored value. -/
theorem get_unknown_field_spec (r : DeviceCarbonFootprint) (key : String) :
    ((∃ msg, r.get key = Except.error msg) ↔ key ∉ schemaNames)
    ∧ (∀ f, fieldOfString key = some f → r.data f = none →
        r.get key = Except.ok (Value.vstr "")) := by
  refine ⟨⟨?_, ?_⟩, ?_⟩
  · rintro ⟨msg, hmsg⟩
    rw [← fieldOfString_eq_none_iff]
    cases h : fieldOfString key with
    | none => rfl
    | some f =>
      exfalso
      simp only [DeviceCarbonFootprint.get, h] at hmsg
      cases hd : r.data f <;> rw [hd] at hmsg <;> exact Except.noConfusion hmsg
  · intro hmem
    have h0 : fieldOfString key = none :=
      (fieldOfString_eq_none_iff key).mpr hmem
    exact ⟨"DeviceCarbonFootprint has no such field " ++ key,
      by simp [DeviceCarbonFootprint.get, h0]⟩
  · intro f hf hnone
    simp [DeviceCarbonFootprint.get, hf, hnone]

/-- A record with no stored values. -/
def emptyDev : DeviceCarbonFootprint := ⟨fun _ => none⟩

/-- Witness for C8: the name `bogus` is rejected; the schema name
`comment` with no stored value reads back as the empty string. -/
theorem get_unknown_field_spec_witness :
    (∃ msg, emptyDev.get "bogus" = Except.error msg)
    ∧ emptyDev.get "comment" = Except.ok (Value.vstr "") :=
  ⟨(get_unknown_field_spec emptyDev "bogus").1.mpr (by decide),
   (get_unknown_field_spec emptyDev "comment").2 Field.comment
     (by decide) rfl⟩

/-! ### Claims about the merge algorithm -/

/-- C4: after a merge the two provenance sets are disjoint, their union
covers the whole schema, the merged record stores a value for every
schema field, and each field lies in exactly one of the two sets. -/
theorem merge_partition (d1 d2 : DeviceCarbonFootprint) :
    (merge d1 d2).2.1.1 ∩ (merge d1 d2).2.1.2 = ∅
    ∧ (merge d1 d2).2.1.1 ∪ (merge d1 d2).2.1.2 = Finset.univ
    ∧ (∀ f : Field, (merge d1 d2).1.data f ≠ none)
    ∧ (∀ f : Field,
        (f ∈ (merge d1 d2).2.1.1 ↔ f ∉ (merge d1 d2).2.1.2)) := by
  refine ⟨?_, ?_, ?_, ?_⟩
  · ext f
    simp [merge_repA_mem, merge_repB_mem]
  · ext f
    simp only [Finset.mem_union, Finset.mem_univ, iff_true,
      merge_repA_mem, merge_repB_mem]
    exact em _
  · intro f
    simp [merge_data_eq]
  · intro f
    simp [merge_repA_mem, merge_repB_mem]

/-- C10: through the accessor, every field of the merged record carries
either record A's accessor value or record B's accessor value — merge
never synthesizes a value that came from neither input. -/
theorem merge_no_synthesized_values (d1 d2 : DeviceCarbonFootprint)
    (f : Field) :
    (merge d1 d2).1.getField f = d1.getField f
    ∨ (merge d1 d2).1.getField f = d2.getField f := by
  have h := merge_data_eq d1 d2 f
  have hg : (merge d1 d2).1.getField f = chosenValue d1 d2 f := by
    simp [DeviceCarbonFootprint.getField, h]
  rw [hg]
  cases hc : mergeClassify f (d1.getField f) (d2.getField f)
  · left
    simp [chosenValue, hc]
  · right
    simp [chosenValue, hc]
  · right
    simp [chosenValue, hc]

/-- C5: a present value beats an empty one and is attributed to the
record that supplied it; when both sides are empty, record B's empty
value is kept and attributed to the second set. -/
theorem merge_emptiness_precedence (d1 d2 : DeviceCarbonFootprint)
    (f : Field) :
    (is_empty (d1.getField f) = false → is_empty (d2.getField f) = true →
      (merge d1 d2).1.data f = some (d1.getField f)
      ∧ f ∈ (merge d1 d2).2.1.1)
    ∧ (is_empty (d1.getField f) = true → is_empty (d2.getField f) = false →
      (merge d1 d2).1.data f = some (d2.getField f)
      ∧ f ∈ (merge d1 d2).2.1.2)
    ∧ (is_empty (d1.getField f) = true → is_empty (d2.getField f) = true →
      (merge d1 d2).1.data f = some (d2.getField f)
      ∧ f ∈ (merge d1 d2).2.1.2) := by
  refine ⟨fun h1 h2 => ?_, fun h1 h2 => ?_, fun h1 h2 => ?_⟩
  · have hc : mergeClassify f (d1.getField f) (d2.getField f) = .keep1 := by
      simp [mergeClassify, h1, h2]
    exact ⟨by rw [merge_data_eq]; simp [chosenValue, hc],
      (merge_repA_mem d1 d2 f).mpr hc⟩
  · have hc : mergeClassify f (d1.getField f) (d2.getField f) = .keep2 := by
      simp [mergeClassify, h1, h2]
    exact ⟨by rw [merge_data_eq]; simp [chosenValue, hc],
      (merge_repB_mem d1 d2 f).mpr (by simp [hc])⟩
  · have hc : mergeClassify f (d1.getField f) (d2.getField f) = .keep2 := by
      simp [mergeClassify, h1, h2]
    exact ⟨by rw [merge_data_eq]; simp [chosenValue, hc],
      (merge_repB_mem d1 d2 f).mpr (by simp [hc])⟩

/-- A record whose only stored value is `manufacturer = "X"`. -/
def wX : DeviceCarbonFootprint :=
  ⟨fun f => if f = Field.manufacturer then some (Value.vstr "X") else none⟩

/-- Witness for C5: `(empty, "X")` keeps `"X"` in the second set,
`("X", empty)` keeps `"X"` in the first set, and `(empty, empty)` keeps
the empty string in the second set. -/
theorem merge_emptiness_precedence_witness :
    ((merge emptyDev wX).1.data Field.manufacturer = some (Value.vstr "X")
      ∧ Field.manufacturer ∈ (merge emptyDev wX).2.1.2)
    ∧ ((merge wX emptyDev).1.data Field.manufacturer = some (Value.vstr "X")
      ∧ Field.manufacturer ∈ (merge wX emptyDev).2.1.1)
    ∧ ((merge emptyDev emptyDev).1.data Field.comment = some (Value.vstr "")
      ∧ Field.comment ∈ (merge emptyDev emptyDev).2.1.2) := by
  refine ⟨?_, ?_, ?_⟩
  · obtain ⟨ha, hb⟩ :=
      (merge_emptiness_precedence emptyDev wX Field.manufacturer).2.1
        (by decide) (by decide)
    exact ⟨by rw [ha]; rfl, hb⟩
  · obtain ⟨ha, hb⟩ :=
      (merge_emptiness_precedence wX emptyDev Field.manufacturer).1
        (by decide) (by decide)
    exact ⟨by rw [ha]; rfl, hb⟩
  · obtain ⟨ha, hb⟩ :=
      (merge_emptiness_precedence emptyDev emptyDev Field.comment).2.2
        (by decide) (by decide)
    exact ⟨by rw [ha]; rfl, hb⟩

/-- C1: under the keep2nd policy, when at least one field is classified
as a conflict, every conflicting field receives record B's value, joins
the second provenance set, and is still reported in the returned
conflict list. -/
theorem merge_keep2nd_reports_conflicts (d1 d2 : DeviceCarbonFootprint)
    (_hconf : ∃ f, mergeClassify f (d1.getField f) (d2.getField f)
      = .conflict) :
    ∀ f, mergeClassify f (d1.getField f) (d2.getField f) = .conflict →
      (merge d1 d2).1.data f = some (d2.getField f)
      ∧ f ∈ (merge d1 d2).2.1.2
      ∧ f ∈ (merge d1 d2).2.2 := by
  intro f hf
  refine ⟨?_, ?_, ?_⟩
  · rw [merge_data_eq]
    simp [chosenValue, hf]
  · exact (merge_repB_mem d1 d2 f).mpr (by simp [hf])
  · rw [merge_conflicts_eq]
    simp [List.mem_filter, mem_schemaFields f, hf]

/-- Record A of the conflicting pair: `category = "Laptop"`. -/
def devA : DeviceCarbonFootprint :=
  ⟨fun f => if f = Field.category then some (Value.vstr "Laptop") else none⟩

/-- Record B of the conflicting pair: `category = "Desktop"`. -/
def devB : DeviceCarbonFootprint :=
  ⟨fun f => if f = Field.category then some (Value.vstr "Desktop") else none⟩

/-- Witness for C1: `category = "Laptop"` versus `category = "Desktop"`
is a conflict; keep2nd keeps `"Desktop"`, attributes the field to the
second set, and reports it in the conflict list. -/
theorem merge_keep2nd_reports_conflicts_witness :
    (merge devA devB).1.data Field.category
        = some (devB.getField Field.category)
    ∧ Field.category ∈ (merge devA devB).2.1.2
    ∧ Field.category ∈ (merge devA devB).2.2 :=
  merge_keep2nd_reports_conflicts devA devB
    ⟨Field.category, by decide⟩ Field.category (by decide)


/-- Stored values that survive self-merge without conflict: any string,
`nan`, and nonnegative numerics (a negative number `v` fails
`abs(v-v) <= 2e-3 * max(v,v)` because the bound is negative). -/
def selfOk : Value → Bool
  | .vint n => decide (0 ≤ n)
  | .vfloat q => decide (0 ≤ q)
  | _ => true

/-- The predicate `selfOk` lifted to an optional stored value. -/
def selfOkOpt : Option Value → Bool
  | none => true
  | some v => selfOk v

/-- A record whose only stored value is `gwp_total = -1.0`. -/
def rneg : DeviceCarbonFootprint :=
  ⟨fun f => if f = Field.gwp_total then some (Value.vfloat (-1)) else none⟩

/-- C3 counterexample: merging the record `{gwp_total: -1.0}` with
itself classifies `gwp_total` as a conflict — `abs(v-v) = 0` is not
`≤ 2e-3 * max(v,v) = -0.002` — so the conflict list of a self-merge is
not always empty, contradicting the claim. -/
theorem merge_self_cex : (merge rneg rneg).2.2 ≠ [] := by
  have hv : rneg.getField Field.gwp_total = Value.vfloat (-1) := rfl
  have h1 : is_empty (Value.vfloat (-1)) = false := by decide
  have h2 : are_equal (Value.vfloat (-1)) (Value.vfloat (-1)) = false := by
    rw [are_equal_float_float, decide_eq_false_iff_not]
    norm_num
  have h3 : are_close_enough (Value.vfloat (-1)) (Value.vfloat (-1))
      = false := by
    rw [are_close_float_float, decide_eq_false_iff_not]
    norm_num
  have h4 : Field.gwp_total ∉ ignore_keys := by decide
  have h5 : (Field.gwp_total == Field.sources) = false := by decide
  have hc : mergeClassify Field.gwp_total (Value.vfloat (-1))
      (Value.vfloat (-1)) = .conflict := by
    simp [mergeClassify, h1, h2, h3, h4, h5]
  have hm : Field.gwp_total ∈ (merge rneg rneg).2.2 := by
    rw [merge_conflicts_eq]
    refine List.mem_filter.mpr ⟨mem_schemaFields _, ?_⟩
    rw [hv, hc]
    rfl
  intro hnil
  rw [hnil] at hm
  exact List.not_mem_nil _ hm

/-- A self-comparison of a `selfOk` nonempty value is strictly equal,
so every `selfOk` value self-classifies as keep2. -/
theorem classify_self_keep2 (f : Field) (v : Value)
    (hv : selfOk v = true) : mergeClassify f v v = .keep2 := by
  cases he : is_empty v
  · have heq : are_equal v v = true := by
      cases v with
      | vstr s => simp [are_equal]
      | vnan => simp [is_empty] at he
      | vint n =>
        have hn : (0:ℤ) ≤ n := by simpa [selfOk] using hv
        have hq : (0:ℚ) ≤ (n:ℚ) := by exact_mod_cast hn
        rw [are_equal_int_int, decide_eq_true_eq, sub_self, abs_zero,
          max_self]
        linarith
      | vfloat q =>
        have hq : (0:ℚ) ≤ q := by simpa [selfOk] using hv
        rw [are_equal_float_float, decide_eq_true_eq, sub_self, abs_zero,
          max_self]
        linarith
    simp [mergeClassify, he, heq]
  · simp [mergeClassify, he]

/-- C3 amended: for a record all of whose stored numeric values are
nonnegative, the keep2nd self-merge agrees with the input on every
schema field through the accessor (a field absent from the input is
materialized as the empty string), attributes every field to the second
set, leaves the first set empty, and reports no conflicts. -/
theorem merge_self_keep2nd (r : DeviceCarbonFootprint)
    (h : ∀ f, selfOkOpt (r.data f) = true) :
    (∀ f, (merge r r).1.data f = some (r.getField f))
    ∧ (merge r r).2.1.1 = ∅
    ∧ (merge r r).2.1.2 = Finset.univ
    ∧ (merge r r).2.2 = [] := by
  have hget : ∀ f, selfOk (r.getField f) = true := by
    intro f
    have hf := h f
    unfold DeviceCarbonFootprint.getField
    cases hd : r.data f
    · rfl
    · rw [hd] at hf
      exact hf
  have hcls : ∀ f, mergeClassify f (r.getField f) (r.getField f)
      = .keep2 := fun f => classify_self_keep2 f _ (hget f)
  refine ⟨?_, ?_, ?_, ?_⟩
  · intro f
    rw [merge_data_eq]
    simp [chosenValue, hcls f]
  · ext f
    simp [merge_repA_mem, hcls f]
  · ext f
    simp [merge_repB_mem, hcls f]
  · rw [merge_conflicts_eq, List.filter_eq_nil_iff]
    intro f _
    simp [hcls f]

/-- A record with a string, a positive float and a positive int. -/
def selfDev : DeviceCarbonFootprint :=
  ⟨fun f =>
    if f = Field.manufacturer then some (Value.vstr "Apple")
    else if f = Field.gwp_total then some (Value.vfloat 104)
    else if f = Field.height then some (Value.vint 2)
    else none⟩

/-- Witness for the amended C3 on a concrete record. -/
theorem merge_self_keep2nd_witness :
    (∀ f, (merge selfDev selfDev).1.data f = some (selfDev.getField f))
    ∧ (merge selfDev selfDev).2.1.1 = ∅
    ∧ (merge selfDev selfDev).2.1.2 = Finset.univ
    ∧ (merge selfDev selfDev).2.2 = [] :=
  merge_self_keep2nd selfDev (by decide)


/-! ### Claim about the CSV row formatter -/

theorem contains_eq_false_of_forbidden (x : Char) (cell : List Char)
    (h : ∀ c ∈ cell, c ≠ x) : cell.contains x = false := by
  induction cell with
  | nil => rfl
  | cons c cs ih =>
    simp only [List.contains_cons, Bool.or_eq_false_iff]
    constructor
    · simp only [beq_eq_false_iff_ne]
      exact fun hh => (h c (by simp)) hh.symm
    · exact ih fun d hd => h d (List.mem_cons_of_mem _ hd)

/-- A cell free of the delimiter, quotes and CR/LF is left unquoted by
the minimal-quoting rule. -/
theorem csvQuote_eq_self (delim : Char) (cell : List Char)
    (h : ∀ c ∈ cell, c ≠ delim ∧ c ≠ '"' ∧ c ≠ '\r' ∧ c ≠ '\n') :
    csvQuote delim cell = cell := by
  have h1 := contains_eq_false_of_forbidden delim cell fun c hc => (h c hc).1
  have h2 := contains_eq_false_of_forbidden '"' cell fun c hc => (h c hc).2.1
  have h3 := contains_eq_false_of_forbidden '\r' cell fun c hc => (h c hc).2.2.1
  have h4 := contains_eq_false_of_forbidden '\n' cell fun c hc => (h c hc).2.2.2
  have hcond : (cell.contains delim || cell.contains '"' ||
      cell.contains '\r' || cell.contains '\n') = false := by
    rw [h1, h2, h3, h4]
    rfl
  unfold csvQuote
  rw [hcond]
  simp

theorem formatCell_fr (v : Value) :
    formatCell CsvFormat.fr v
      = if v.isFloat then
          (pyStrChars v).map (fun c => if c = '.' then ',' else c)
        else pyStrChars v := by
  simp [formatCell]

theorem formatCell_us (v : Value) :
    formatCell CsvFormat.us v = pyStrChars v := by
  simp [formatCell]

/-- C9: on a record whose stringified values carry no delimiter, quote
or CR/LF characters, `as_csv_row` renders the accessor values in schema
order: in the `fr` locale they are joined by `;` with every `.` inside a
float-typed value replaced by `,`, and in the `us` locale they are
joined by `,` with floats keeping their decimal point; non-float values
are stringified unchanged in both modes; the line ends in CRLF. -/
theorem as_csv_row_locale (r : DeviceCarbonFootprint)
    (hclean : ∀ f : Field, ∀ c ∈ pyStrChars (r.getField f),
      c ≠ ';' ∧ c ≠ ',' ∧ c ≠ '"' ∧ c ≠ '\r' ∧ c ≠ '\n') :
    as_csv_row r CsvFormat.fr
      = String.mk (List.intercalate [';']
          (schemaFields.map (fun f =>
            if (r.getField f).isFloat then
              (pyStrChars (r.getField f)).map
                (fun c => if c = '.' then ',' else c)
            else pyStrChars (r.getField f)))
          ++ ['\r', '\n'])
    ∧ as_csv_row r CsvFormat.us
      = String.mk (List.intercalate [',']
          (schemaFields.map (fun f => pyStrChars (r.getField f)))
          ++ ['\r', '\n']) := by
  constructor
  · have hq : ∀ f : Field,
        csvQuote ';' (formatCell CsvFormat.fr (r.getField f))
          = formatCell CsvFormat.fr (r.getField f) := by
      intro f
      apply csvQuote_eq_self
      intro c hc
      rw [formatCell_fr] at hc
      by_cases hfl : (r.getField f).isFloat = true
      · rw [if_pos hfl] at hc
        obtain ⟨c0, hc0, rfl⟩ := List.mem_map.mp hc
        obtain ⟨k1, k2, k3, k4, k5⟩ := hclean f c0 hc0
        by_cases hdot : c0 = '.'
        · subst hdot
          refine ⟨by decide, by decide, by decide, by decide⟩
        · rw [if_neg hdot]
          exact ⟨k1, k3, k4, k5⟩
      · rw [if_neg hfl] at hc
        obtain ⟨k1, k2, k3, k4, k5⟩ := hclean f c hc
        exact ⟨k1, k3, k4, k5⟩
    have hdelim : csvDelim CsvFormat.fr = ';' := rfl
    simp only [as_csv_row, _format_csv_row, hdelim]
    congr 1
    congr 1
    congr 1
    rw [List.map_map, List.map_map]
    refine List.map_congr_left fun f _ => ?_
    simp only [Function.comp_apply, formatCell_fr]
    rw [← formatCell_fr]
    exact hq f
  · have hq : ∀ f : Field,
        csvQuote ',' (formatCell CsvFormat.us (r.getField f))
          = formatCell CsvFormat.us (r.getField f) := by
      intro f
      apply csvQuote_eq_self
      intro c hc
      rw [formatCell_us] at hc
      obtain ⟨k1, k2, k3, k4, k5⟩ := hclean f c hc
      exact ⟨k2, k3, k4, k5⟩
    have hdelim : csvDelim CsvFormat.us = ',' := rfl
    simp only [as_csv_row, _format_csv_row, hdelim]
    congr 1
    congr 1
    congr 1
    rw [List.map_map, List.map_map]
    refine List.map_congr_left fun f _ => ?_
    simp only [Function.comp_apply, formatCell_us]
    rw [← formatCell_us]
    exact hq f

/-- Python `str(104.0)` in the model: the digits, a decimal point, and the
trailing zero Python prints for a whole float. -/
theorem pyStr_vfloat_104 :
    pyStrChars (Value.vfloat 104) = ['1', '0', '4', '.', '0'] := by
  have habs : |(104:ℚ)| = 104 := by norm_num
  have hneg : ¬((104:ℚ) < 0) := by norm_num
  have hfl : ⌊(104:ℚ)⌋ = 104 := by
    rw [show (104:ℚ) = ((104:ℤ):ℚ) by norm_num]
    exact Int.floor_intCast 104
  have hsub : (104:ℚ) - ((104:ℤ):ℚ) = 0 := by norm_num
  simp only [pyStrChars, floatChars, habs, hfl, if_neg hneg, hsub]
  have hfrac : fracChars 17 0 = [] := by
    show fracChars (16 + 1) 0 = []
    simp [fracChars]
  rw [hfrac]
  decide

/-- Witness for C9 on a record holding a string, the float `104.0` and
an int. -/
theorem as_csv_row_locale_witness :
    as_csv_row selfDev CsvFormat.fr
      = String.mk (List.intercalate [';']
          (schemaFields.map (fun f =>
            if (selfDev.getField f).isFloat then
              (pyStrChars (selfDev.getField f)).map
                (fun c => if c = '.' then ',' else c)
            else pyStrChars (selfDev.getField f)))
          ++ ['\r', '\n'])
    ∧ as_csv_row selfDev CsvFormat.us
      = String.mk (List.intercalate [',']
          (schemaFields.map (fun f => pyStrChars (selfDev.getField f)))
          ++ ['\r', '\n']) :=
  as_csv_row_locale selfDev (by
    intro f
    cases f
    case gwp_total =>
      rw [show selfDev.getField Field.gwp_total = Value.vfloat 104 from rfl,
        pyStr_vfloat_104]
      decide
    all_goals decide)

end EFData
